import Mathlib

/-!
Verification of the Eat-Glish repository: a camera-driven "mouth muncher"
arcade game in three variants.

* `WordMuncher` embeds `src/unnamed/part_000` (MediaPipe word-matching variant).
* `FaceApi` embeds `src/unnamed/part_001` (face-api.js word-matching variant).
* `CakeMuncher` embeds the point-based `CakeMuncher` component of `src/App.tsx`.

Screen coordinates, velocities and random draws are modelled as exact
rationals (`ℚ`); JavaScript `Math.random()` outputs become explicit draw
parameters in `[0,1)`.  Scores are modelled as `ℤ` (they are integer-valued
in the source).  The source compares `Math.sqrt(dx*dx+dy*dy) < r` and
`Math.sqrt(...) > θ`; since both sides are nonnegative these are rendered
exactly as the squared comparisons `dx*dx+dy*dy < r^2` and `... > θ^2`.
Fallible array indexing (JavaScript `undefined` followed by a property
access, which throws) is rendered with `Option`.
-/

namespace EatGlish

/-- The enumerated treat categories of `types.ts` (`TreatType`). -/
inductive TreatType
  | cupcake
  | donut
  | cake
  | cookie
  | icecream
  | cherry
deriving DecidableEq, Repr

/-- A vocabulary quiz item (`Quiz` in `types.ts`). -/
structure Quiz where
  image : String
  word : String
  hint : String
  category : String
deriving DecidableEq, Repr

/-- The fixed quiz list, identical in `part_000` and `part_001` (`QUIZ_LIST`). -/
def QUIZ_LIST : List Quiz := [
  { image := "🍎", word := "Apple", hint := "사과", category := "Fruits" },
  { image := "🍌", word := "Banana", hint := "바나나", category := "Fruits" },
  { image := "🐶", word := "Dog", hint := "강아지", category := "Animals" },
  { image := "🐱", word := "Cat", hint := "고양이", category := "Animals" },
  { image := "🚗", word := "Car", hint := "자동차", category := "Transport" },
  { image := "🌞", word := "Sun", hint := "태양", category := "Nature" },
  { image := "📚", word := "Book", hint := "책", category := "Objects" },
  { image := "⚽", word := "Ball", hint := "공", category := "Sports" }]

/-- Squared Euclidean distance.  The source computes
`Math.sqrt((x1-x2)^2 + (y1-y2)^2)` and compares it with a nonnegative
radius `r`; `sqrt d < r ↔ d < r^2`, so all comparisons below use the
squared form. -/
def distSq (x1 y1 x2 y2 : ℚ) : ℚ := (x1 - x2) ^ 2 + (y1 - y2) ^ 2

/-- The per-tick inputs of a treat-processing pass: viewport height and the
current mouth state read from the refs (`mouthPos.current`,
`isMouthOpen.current`). -/
structure TickEnv where
  height : ℚ
  mouthX : ℚ
  mouthY : ℚ
  mouthOpen : Bool
deriving DecidableEq, Repr

/-- The mouth state kept in refs: position and the open/closed flag
(`mouthPos` and `isMouthOpen`). -/
structure MouthState where
  x : ℚ
  y : ℚ
  isOpen : Bool
deriving DecidableEq, Repr

/-- One face landmark (normalized coordinates in MediaPipe, pixel
coordinates in face-api). -/
structure Landmark where
  x : ℚ
  y : ℚ
deriving DecidableEq, Repr

/-- The random draws consumed by one spawn call.  Each `Math.random()`
call in the source becomes one field (a rational in `[0,1)`); the id
string `Math.random().toString(36)...` becomes the drawn string `idStr`. -/
structure SpawnDraws where
  typeDraw : ℚ
  correctDraw : ℚ
  wordDraw : ℚ
  xDraw : ℚ
  velDraw : ℚ
  idStr : String
deriving DecidableEq, Repr

namespace WordMuncher

/-- `WordTreat` of `types.ts`, used by `part_000`. -/
structure WordTreat where
  id : String
  x : ℚ
  y : ℚ
  type : TreatType
  word : String
  isCorrect : Bool
  active : Bool
  velocity : ℚ
deriving DecidableEq, Repr

/-- `MOUTH_OPEN_THRESHOLD = 0.045` of `part_000` (normalized lip distance). -/
def MOUTH_OPEN_THRESHOLD : ℚ := 45 / 1000

/-- `spawnTreat` of `part_000` (lines 128–152).  Returns `none` exactly when
the source would throw: an out-of-range index into `otherQuizzes` yields
`undefined`, whose `.word` access is a TypeError. -/
def spawnTreat (width : ℚ) (correctWord : String) (d : SpawnDraws) : Option WordTreat :=
  let types : List TreatType := [.cupcake, .cookie, .donut, .icecream, .cake]
  let type := types.getD (Int.toNat ⌊d.typeDraw * (types.length : ℚ)⌋) .cupcake
  let isCorrect : Bool := decide (d.correctDraw < 3 / 10)
  let otherQuizzes := QUIZ_LIST.filter (fun q => decide (q.word ≠ correctWord))
  let wordOpt : Option String :=
    if isCorrect then some correctWord
    else (otherQuizzes.get? (Int.toNat ⌊d.wordDraw * (otherQuizzes.length : ℚ)⌋)).map
      (fun q => q.word)
  wordOpt.map (fun word =>
    { id := d.idStr
      x := d.xDraw * (width - 150) + 75
      y := -50
      type := type
      word := word
      isCorrect := isCorrect
      active := true
      velocity := 3 / 2 + d.velDraw * 2 })

/-- The Euler position update `t.y += t.velocity` applied to one treat. -/
def fallenTreat (t : WordTreat) : WordTreat := { t with y := t.y + t.velocity }

/-- The treat-update loop of `onResults` in `part_000` (lines 235–276),
iterating from the last index down to 0 (so later list elements are
processed first).  Returns the surviving treat list, the new score
(`scoreRef.current`) and the number of `setTimeout(nextQuiz, 500)` calls
scheduled this tick.  Off-screen and collided treats are kept in the list
with `active := false` (the source splices them out on the next tick's
`!t.active` check); already-inactive treats are spliced out. -/
def processTreats (env : TickEnv) : List WordTreat → ℤ → List WordTreat × ℤ × ℕ
  | [], score => ([], score, 0)
  | t :: rest, score =>
    let r := processTreats env rest score
    if t.active = false then r
    else
      let t' := fallenTreat t
      if t'.y > env.height + 50 then ({ t' with active := false } :: r.1, r.2.1, r.2.2)
      else if env.mouthOpen = true ∧ distSq t'.x t'.y env.mouthX env.mouthY < 70 ^ 2 then
        if t.isCorrect = true then ({ t' with active := false } :: r.1, r.2.1 + 100, r.2.2 + 1)
        else ({ t' with active := false } :: r.1, max 0 (r.2.1 - 50), r.2.2)
      else (t' :: r.1, r.2.1, r.2.2)

/-- `nextQuiz` of `part_000` (lines 167–171): the index step
`(QUIZ_LIST.indexOf(currentQuiz) + 1) % QUIZ_LIST.length`. -/
def nextQuiz (current : Quiz) : Quiz :=
  QUIZ_LIST.getD ((QUIZ_LIST.indexOf current + 1) % QUIZ_LIST.length)
    (Quiz.mk "" "" "" "")

/-- The face-landmark section of `onResults` in `part_000` (lines 207–230):
with a detected face the mouth position and open flag are recomputed
(the source compares `Math.sqrt(dx^2+dy^2) > 0.045`, rendered squared);
with no face the previous mouth state is left untouched. -/
def onResultsMouth (landmarks : Option (Landmark × Landmark)) (width height : ℚ)
    (prev : MouthState) : MouthState :=
  match landmarks with
  | none => prev
  | some (topLip, bottomLip) =>
    { x := (1 - (topLip.x + bottomLip.x) / 2) * width
      y := (topLip.y + bottomLip.y) / 2 * height
      isOpen := decide (distSq topLip.x topLip.y bottomLip.x bottomLip.y >
        MOUTH_OPEN_THRESHOLD ^ 2) }

/-- The AI-advice trigger of `onResults` in `part_000` (lines 292–301): the
request fires whenever `Date.now() - lastCaptureTime.current > 7000`.  The
treat list and the in-flight flag (`isAiThinking`) are accepted as
arguments to record that the source consults neither of them. -/
def dispatchFires (now lastCaptureTime : ℤ) (_isAiThinking : Bool)
    (_treats : List WordTreat) : Bool :=
  decide (now - lastCaptureTime > 7000)

/-- A treat is consumed with a correct match on a `part_000` tick: it is
active, still on screen after its position update, the mouth is open, the
(squared) distance to the mouth is inside the capture radius, and the
treat carries the correct flag. -/
def consumesCorrect (env : TickEnv) (t : WordTreat) : Prop :=
  t.active = true ∧
  ¬ ((fallenTreat t).y > env.height + 50) ∧
  env.mouthOpen = true ∧
  distSq (fallenTreat t).x (fallenTreat t).y env.mouthX env.mouthY < 70 ^ 2 ∧
  t.isCorrect = true

/-- The observable game state of `part_000`: the active quiz
(`currentQuiz`), the treats (`treats.current`), the score
(`scoreRef.current`) and the number of `setTimeout(nextQuiz, 500)`
callbacks scheduled but not yet run (`pending`). -/
structure GState where
  currentQuiz : Quiz
  treats : List WordTreat
  score : ℤ
  pending : ℕ
deriving DecidableEq, Repr

/-- One `onResults` treat pass applied to the state. -/
def tickState (env : TickEnv) (s : GState) : GState :=
  let r := processTreats env s.treats s.score
  { currentQuiz := s.currentQuiz
    treats := r.1
    score := r.2.1
    pending := s.pending + r.2.2 }

/-- A pending `nextQuiz` callback fires: the quiz current at that moment
steps to the next list entry (wrapping) and `treats.current` is cleared. -/
def advanceState (s : GState) : GState :=
  { currentQuiz := nextQuiz s.currentQuiz
    treats := []
    score := s.score
    pending := s.pending - 1 }

/-- The transitions of the `part_000` game: a spawn (pushes the new
treat, with the current quiz word as target), a treat pass, or a pending
`nextQuiz` callback firing. -/
inductive Step : GState → GState → Prop
  | spawn (s : GState) (width : ℚ) (d : SpawnDraws) (t : WordTreat)
      (h : spawnTreat width s.currentQuiz.word d = some t) :
      Step s { s with treats := s.treats ++ [t] }
  | tick (s : GState) (env : TickEnv) : Step s (tickState env s)
  | advance (s : GState) (h : 0 < s.pending) : Step s (advanceState s)

end WordMuncher

namespace FaceApi

/-- `FallingWord` of `part_001`. -/
structure FallingWord where
  id : String
  x : ℚ
  y : ℚ
  word : String
  emoji : String
  isCorrect : Bool
  velocity : ℚ
deriving DecidableEq, Repr

/-- `TREAT_TYPES` of `part_001`. -/
def TREAT_TYPES : List TreatType := [.cupcake, .cookie, .donut, .icecream, .cake]

/-- `TREAT_EMOJIS` of `part_001`. -/
def TREAT_EMOJIS : TreatType → String
  | .cupcake => "🧁"
  | .cookie => "🍪"
  | .donut => "🍩"
  | .icecream => "🍦"
  | .cake => "🍰"
  | .cherry => "🍒"

/-- `MOUTH_OPEN_THRESHOLD = 0.06` of `part_001` (lip distance over face
bounding-box height). -/
def MOUTH_OPEN_THRESHOLD : ℚ := 6 / 100

/-- `spawnWord` of `part_001` (lines 73–92).  The quiz is
`QUIZ_LIST[quizIndexRef.current]`; an out-of-range quiz index or an
out-of-range index into the filtered list would make the source throw on
the `.word` access, rendered as `none`. -/
def spawnWord (width : ℚ) (quizIndex : ℕ) (d : SpawnDraws) : Option FallingWord :=
  match QUIZ_LIST.get? quizIndex with
  | none => none
  | some quiz =>
    let type := TREAT_TYPES.getD (Int.toNat ⌊d.typeDraw * (TREAT_TYPES.length : ℚ)⌋) .cupcake
    let isCorrect : Bool := decide (d.correctDraw < 7 / 20)
    let wordOpt : Option String :=
      if isCorrect then some quiz.word
      else ((QUIZ_LIST.filter (fun q => decide (q.word ≠ quiz.word))).get?
          (Int.toNat ⌊d.wordDraw * ((QUIZ_LIST.length - 1 : ℕ) : ℚ)⌋)).map
        (fun q => q.word)
    wordOpt.map (fun word =>
      { id := d.idStr
        x := 100 + d.xDraw * (width - 200)
        y := -60
        word := word
        emoji := TREAT_EMOJIS type
        isCorrect := isCorrect
        velocity := 2 + d.velDraw * 2 })

/-- The Euler position update `word.y += word.velocity`. -/
def fallen (w : FallingWord) : FallingWord := { w with y := w.y + w.velocity }

/-- The word-update loop of `gameLoop` in `part_001` (lines 260–305),
iterating from the last index down to 0.  Off-screen words
(`y > height + 60`) and collided words are spliced out immediately.
Returns the surviving word list, the new score and the number of
quiz-advance `setTimeout` callbacks scheduled this tick. -/
def processWords (env : TickEnv) : List FallingWord → ℤ → List FallingWord × ℤ × ℕ
  | [], score => ([], score, 0)
  | w :: rest, score =>
    let r := processWords env rest score
    let w' := fallen w
    if w'.y > env.height + 60 then r
    else if env.mouthOpen = true ∧ distSq w'.x w'.y env.mouthX env.mouthY < 70 ^ 2 then
      if w.isCorrect = true then (r.1, r.2.1 + 100, r.2.2 + 1)
      else (r.1, max 0 (r.2.1 - 50), r.2.2)
    else (w' :: r.1, r.2.1, r.2.2)

/-- A word is consumed with a correct match this tick: after its position
update it is still on screen, the mouth is open, the (squared) distance to
the mouth is inside the capture radius, and the word carries the correct
flag. -/
def consumesCorrect (env : TickEnv) (w : FallingWord) : Prop :=
  ¬ ((fallen w).y > env.height + 60) ∧
  env.mouthOpen = true ∧
  distSq (fallen w).x (fallen w).y env.mouthX env.mouthY < 70 ^ 2 ∧
  w.isCorrect = true

instance (env : TickEnv) (w : FallingWord) : Decidable (consumesCorrect env w) := by
  unfold consumesCorrect; infer_instance

/-- A word survives the tick: neither off screen nor consumed. -/
def keeps (env : TickEnv) (w : FallingWord) : Prop :=
  ¬ ((fallen w).y > env.height + 60) ∧
  ¬ (env.mouthOpen = true ∧
      distSq (fallen w).x (fallen w).y env.mouthX env.mouthY < 70 ^ 2)

instance (env : TickEnv) (w : FallingWord) : Decidable (keeps env w) := by
  unfold keeps; infer_instance

/-- The observable game state of `part_001`: the falling words
(`wordsRef`), the score (`scoreRef`), the quiz index (`quizIndexRef`) and
the number of quiz-advance `setTimeout` callbacks scheduled but not yet
run (`pending`). -/
structure GState where
  words : List FallingWord
  score : ℤ
  quizIndex : ℕ
  pending : ℕ
deriving DecidableEq, Repr

/-- One simulation tick applied to the state. -/
def tickState (env : TickEnv) (s : GState) : GState :=
  let r := processWords env s.words s.score
  { words := r.1, score := r.2.1, quizIndex := s.quizIndex, pending := s.pending + r.2.2 }

/-- A pending quiz-advance callback fires (lines 280–284):
`quizIndexRef.current = (quizIndexRef.current + 1) % QUIZ_LIST.length` and
`wordsRef.current = []`. -/
def advanceState (s : GState) : GState :=
  { words := []
    score := s.score
    quizIndex := (s.quizIndex + 1) % QUIZ_LIST.length
    pending := s.pending - 1 }

/-- The transitions of the `part_001` game: a spawn (pushes the new word),
a simulation tick, or a pending quiz-advance callback firing. -/
inductive Step : GState → GState → Prop
  | spawn (s : GState) (width : ℚ) (d : SpawnDraws) (w : FallingWord)
      (h : spawnWord width s.quizIndex d = some w) :
      Step s { s with words := s.words ++ [w] }
  | tick (s : GState) (env : TickEnv) : Step s (tickState env s)
  | advance (s : GState) (h : 0 < s.pending) : Step s (advanceState s)

/-- The initial state: no words, score 0, first quiz, nothing pending. -/
def init : GState := { words := [], score := 0, quizIndex := 0, pending := 0 }

/-- Reachability under any sequence of spawns, ticks and advance callbacks. -/
def Reach : GState → GState → Prop := Relation.ReflTransGen Step

/-- `detectFace` of `part_001` (lines 169–209): with a detection, mouth
position and open flag are recomputed (the ratio
`|lowerLip.y - upperLip.y| / faceHeight` is compared against 0.06); with
no detection only `faceDetected` is updated and the previous mouth state
is left untouched. -/
def detectFaceUpdate (obs : Option (Landmark × Landmark × ℚ))
    (canvasW canvasH videoW videoH : ℚ) (prev : MouthState) : MouthState :=
  match obs with
  | none => prev
  | some (upperLip, lowerLip, faceHeight) =>
    let scaleX := canvasW / videoW
    let scaleY := canvasH / videoH
    { x := canvasW - ((upperLip.x + lowerLip.x) / 2) * scaleX
      y := ((upperLip.y + lowerLip.y) / 2) * scaleY
      isOpen := decide (|lowerLip.y - upperLip.y| / faceHeight > MOUTH_OPEN_THRESHOLD) }

end FaceApi

namespace CakeMuncher

/-- `Treat` of `types.ts`, used by the `CakeMuncher` component. -/
structure Treat where
  id : String
  x : ℚ
  y : ℚ
  type : TreatType
  active : Bool
  points : ℤ
  emoji : String
  scale : ℚ
  velocity : ℚ
deriving DecidableEq, Repr

/-- One entry of `TREAT_CONFIG` in `App.tsx`.  The emoji literals in the
checked-in file are mojibake (UTF-8 bytes re-decoded as Latin-1) of the
emoji used here. -/
structure TreatConfigEntry where
  emoji : String
  points : ℤ
  color : String
deriving DecidableEq, Repr

/-- `TREAT_CONFIG` of `App.tsx` (lines 27–34). -/
def TREAT_CONFIG : TreatType → TreatConfigEntry
  | .cupcake => { emoji := "🧁", points := 100, color := "#ff80ab" }
  | .cookie => { emoji := "🍪", points := 150, color := "#a1887f" }
  | .donut => { emoji := "🍩", points := 200, color := "#f06292" }
  | .icecream => { emoji := "🍦", points := 300, color := "#81d4fa" }
  | .cake => { emoji := "🍰", points := 500, color := "#ffd54f" }
  | .cherry => { emoji := "🍒", points := 1000, color := "#ef5350" }

/-- The category list of `spawnTreat` in `App.tsx` (line 62). -/
def types : List TreatType := [.cupcake, .cookie, .donut, .icecream, .cake, .cherry]

/-- The weights of `spawnTreat` in `App.tsx` (line 64). -/
def weights : List ℕ := [40, 30, 15, 8, 5, 2]

/-- The cumulative-sum loop of `spawnTreat` (lines 66–74): `sum` starts at
0, each iteration adds the weight and selects the current category when
`rand < sum`, breaking out; if no iteration breaks, the initial value
`'cupcake'` stands. -/
def selectTypeGo (rand : ℚ) : List (TreatType × ℕ) → ℚ → TreatType
  | [], _ => .cupcake
  | (t, w) :: rest, sum =>
    let sum' := sum + (w : ℚ)
    if rand < sum' then t else selectTypeGo rand rest sum'

/-- The weighted category selection of `spawnTreat` applied to the draw
`rand = Math.random() * 100`. -/
def selectType (rand : ℚ) : TreatType := selectTypeGo rand (types.zip weights) 0

/-- Modelled from the spec's sampling description: the cumulative sums of
the weights. -/
def cumWeights : List ℕ := (List.scanl (fun a b => a + b) 0 weights).tail

/-- Modelled from the spec's sampling description: the first category in
order whose cumulative weight exceeds the draw (defaulting to the first
category when none does). -/
def specSelectType (rand : ℚ) : TreatType :=
  match (types.zip cumWeights).find? (fun p => decide (rand < (p.2 : ℚ))) with
  | some p => p.1
  | none => .cupcake

/-- `spawnTreat` of `App.tsx` (lines 61–89). -/
def spawnTreat (width : ℚ) (d : SpawnDraws) : Treat :=
  let type := selectType (d.typeDraw * 100)
  let config := TREAT_CONFIG type
  { id := d.idStr
    x := d.xDraw * (width - 100) + 50
    y := -50
    type := type
    active := true
    points := config.points
    emoji := config.emoji
    scale := 1
    velocity := 2 + d.velDraw * 3 }

/-- The Euler position update `t.y += t.velocity`. -/
def fallenTreat (t : Treat) : Treat := { t with y := t.y + t.velocity }

/-- The treat-update loop of `onResults` in `App.tsx` (lines 191–223),
iterating from the last index down to 0.  Capture radius 60; consumption
adds `t.points * multiplier`.  Off-screen and collided treats are kept
with `active := false` and spliced on the next tick. -/
def processTreats (env : TickEnv) (multiplier : ℤ) : List Treat → ℤ → List Treat × ℤ
  | [], score => ([], score)
  | t :: rest, score =>
    let r := processTreats env multiplier rest score
    if t.active = false then r
    else
      let t' := fallenTreat t
      if t'.y > env.height + 50 then ({ t' with active := false } :: r.1, r.2)
      else if env.mouthOpen = true ∧ distSq t'.x t'.y env.mouthX env.mouthY < 60 ^ 2 then
        ({ t' with active := false } :: r.1, r.2 + t.points * multiplier)
      else (t' :: r.1, r.2)

/-- The guard of `handleAiAnalysis` in `App.tsx` (line 105): the request
is issued unless a previous one is still in flight (`isAiThinking`) or no
active treat exists. -/
def handleAiAnalysisFires (isAiThinking : Bool) (treats : List Treat) : Bool :=
  !(isAiThinking || decide ((treats.filter (fun t => t.active)).length = 0))

/-- The full AI trigger of `onResults` in `App.tsx` (lines 245–248): the
5-second timer must have elapsed and the `handleAiAnalysis` guard must
pass. -/
def dispatchFires (now lastCaptureTime : ℤ) (isAiThinking : Bool)
    (treats : List Treat) : Bool :=
  decide (now - lastCaptureTime > 5000) && handleAiAnalysisFires isAiThinking treats

end CakeMuncher

/-! ### Claim C3: mouth state on a detection miss -/

/-- Claim C3, counterexample: on a tick with no detected face, both
word-matching variants leave the previously stored mouth state untouched
rather than treating it as "not open": starting from an open mouth state,
a no-face tick still reports the mouth as open. -/
theorem detection_miss_counterexample :
    (WordMuncher.onResultsMouth none 800 600
      { x := 0, y := 0, isOpen := true }).isOpen = true ∧
    (FaceApi.detectFaceUpdate none 800 600 640 480
      { x := 0, y := 0, isOpen := true }).isOpen = true :=
  ⟨rfl, rfl⟩

/-- Claim C3 (amended): on a detection tick in which no face is found, the
mouth state used for collision checks is left exactly as it was on the
previous tick (so it reads "not open" only if it already did), and the
update itself never fails. -/
theorem detection_miss_retains_state :
    (∀ (width height : ℚ) (prev : MouthState),
      WordMuncher.onResultsMouth none width height prev = prev) ∧
    (∀ (cw ch vw vh : ℚ) (prev : MouthState),
      FaceApi.detectFaceUpdate none cw ch vw vh prev = prev) :=
  ⟨fun _ _ _ => rfl, fun _ _ _ _ _ => rfl⟩

/-! ### Claim C4: advice dispatcher gating -/

/-- Claim C4, counterexample: in the `part_000` variant the advice request
fires on the elapsed-interval condition alone — here with an empty treat
list and a previous request still in flight (`isAiThinking = true`). -/
theorem advice_dispatch_counterexample :
    WordMuncher.dispatchFires 8000 0 true [] = true :=
  rfl

/-- Claim C4 (amended): the point variant's dispatcher (`App.tsx`) only
issues a request when the timer has elapsed, no previous request is in
flight, and at least one active treat exists; the `part_000` word-matching
variant fires exactly when the 7-second interval has elapsed, regardless
of treats or in-flight status. -/
theorem advice_dispatch_gating :
    (∀ (th : Bool) (ts : List CakeMuncher.Treat),
      CakeMuncher.handleAiAnalysisFires th ts = true →
        th = false ∧ ∃ t ∈ ts, t.active = true) ∧
    (∀ (now last : ℤ) (th : Bool) (ts : List CakeMuncher.Treat),
      CakeMuncher.dispatchFires now last th ts = true →
        now - last > 5000 ∧ th = false ∧ ∃ t ∈ ts, t.active = true) ∧
    (∀ (now last : ℤ) (th : Bool) (ts : List WordMuncher.WordTreat),
      WordMuncher.dispatchFires now last th ts = true ↔ now - last > 7000) := by
  refine ⟨?_, ?_, ?_⟩
  · intro th ts h
    simp [CakeMuncher.handleAiAnalysisFires] at h
    exact h
  · intro now last th ts h
    simp [CakeMuncher.dispatchFires, CakeMuncher.handleAiAnalysisFires] at h
    exact ⟨h.1, h.2.1, h.2.2⟩
  · intro now last th ts
    simp [WordMuncher.dispatchFires]

/-- Claim C4, witness: a concrete dispatch of the point variant with an
elapsed timer, no request in flight and one active treat. -/
theorem advice_dispatch_gating_witness :
    (6000 : ℤ) - 0 > 5000 ∧ false = false ∧
      ∃ t ∈ [(⟨"t", 0, 0, .cupcake, true, 100, "🧁", 1, 1⟩ : CakeMuncher.Treat)],
        t.active = true :=
  advice_dispatch_gating.2.1 6000 0 false
    [⟨"t", 0, 0, .cupcake, true, 100, "🧁", 1, 1⟩] rfl

/-! ### Claim C1: collision fires iff mouth open and within the capture radius -/

/-- Claim C1: for every treat processed on a tick that does not leave the
viewport, consumption fires iff the mouth is open and the Euclidean
distance between treat and mouth is strictly below the capture radius —
70 px in both word-matching variants (the treat disappears from the list
in `part_001`; it is deactivated in `part_000`), 60 px in the point
variant; with a closed mouth nothing is consumed and the score is
untouched, regardless of distance. -/
theorem collision_open_within_radius_iff :
    (∀ (env : TickEnv) (w : FaceApi.FallingWord) (s : ℤ),
      ¬ ((FaceApi.fallen w).y > env.height + 60) →
      ((FaceApi.processWords env [w] s).1 = [] ↔
        env.mouthOpen = true ∧
          distSq (FaceApi.fallen w).x (FaceApi.fallen w).y env.mouthX env.mouthY < 70 ^ 2)) ∧
    (∀ (env : TickEnv) (t : WordMuncher.WordTreat) (s : ℤ), t.active = true →
      ¬ ((WordMuncher.fallenTreat t).y > env.height + 50) →
      ((WordMuncher.processTreats env [t] s).1 =
          [{ WordMuncher.fallenTreat t with active := false }] ↔
        env.mouthOpen = true ∧
          distSq (WordMuncher.fallenTreat t).x (WordMuncher.fallenTreat t).y
            env.mouthX env.mouthY < 70 ^ 2)) ∧
    (∀ (env : TickEnv) (m : ℤ) (t : CakeMuncher.Treat) (s : ℤ), t.active = true →
      ¬ ((CakeMuncher.fallenTreat t).y > env.height + 50) →
      ((CakeMuncher.processTreats env m [t] s).1 =
          [{ CakeMuncher.fallenTreat t with active := false }] ↔
        env.mouthOpen = true ∧
          distSq (CakeMuncher.fallenTreat t).x (CakeMuncher.fallenTreat t).y
            env.mouthX env.mouthY < 60 ^ 2)) ∧
    (∀ (env : TickEnv) (w : FaceApi.FallingWord) (s : ℤ), env.mouthOpen = false →
      ¬ ((FaceApi.fallen w).y > env.height + 60) →
      FaceApi.processWords env [w] s = ([FaceApi.fallen w], s, 0)) ∧
    (∀ (env : TickEnv) (t : WordMuncher.WordTreat) (s : ℤ), env.mouthOpen = false →
      t.active = true → ¬ ((WordMuncher.fallenTreat t).y > env.height + 50) →
      WordMuncher.processTreats env [t] s = ([WordMuncher.fallenTreat t], s, 0)) ∧
    (∀ (env : TickEnv) (m : ℤ) (t : CakeMuncher.Treat) (s : ℤ), env.mouthOpen = false →
      t.active = true → ¬ ((CakeMuncher.fallenTreat t).y > env.height + 50) →
      CakeMuncher.processTreats env m [t] s = ([CakeMuncher.fallenTreat t], s)) := by
  refine ⟨?_, ?_, ?_, ?_, ?_, ?_⟩
  · intro env w s hoff
    by_cases hc : env.mouthOpen = true ∧
        distSq (FaceApi.fallen w).x (FaceApi.fallen w).y env.mouthX env.mouthY < 70 ^ 2
    · cases hw : w.isCorrect <;>
        simp [FaceApi.processWords, hoff, hc, hw]
    · simp [FaceApi.processWords, hoff, hc]
  · intro env t s hact hoff
    obtain ⟨tid, tx, ty, ttype, tword, tic, tact, tvel⟩ := t
    simp only at hact
    subst hact
    have hle : ty + tvel ≤ env.height + 50 := by
      simpa [WordMuncher.fallenTreat] using hoff
    by_cases hopen : env.mouthOpen = true <;>
      by_cases hd : distSq tx (ty + tvel) env.mouthX env.mouthY < 70 ^ 2 <;>
      cases hw : tic <;>
      simp [WordMuncher.processTreats, WordMuncher.fallenTreat, not_lt.mpr hle,
        hopen, hd, hw]
  · intro env m t s hact hoff
    obtain ⟨tid, tx, ty, ttype, tact, tpts, tem, tsc, tvel⟩ := t
    simp only at hact
    subst hact
    have hle : ty + tvel ≤ env.height + 50 := by
      simpa [CakeMuncher.fallenTreat] using hoff
    by_cases hopen : env.mouthOpen = true <;>
      by_cases hd : distSq tx (ty + tvel) env.mouthX env.mouthY < 60 ^ 2 <;>
      simp [CakeMuncher.processTreats, CakeMuncher.fallenTreat, not_lt.mpr hle,
        hopen, hd]
  · intro env w s hopen hoff
    simp [FaceApi.processWords, hoff, hopen]
  · intro env t s hopen hact hoff
    have hle : t.y + t.velocity ≤ env.height + 50 := by
      simpa [WordMuncher.fallenTreat] using hoff
    simp [WordMuncher.processTreats, WordMuncher.fallenTreat, hact, hopen,
      not_lt.mpr hle]
  · intro env m t s hopen hact hoff
    have hle : t.y + t.velocity ≤ env.height + 50 := by
      simpa [CakeMuncher.fallenTreat] using hoff
    simp [CakeMuncher.processTreats, CakeMuncher.fallenTreat, hact, hopen,
      not_lt.mpr hle]

/-- Claim C1, witness: with an open mouth a word at distance 10 px is
consumed; with a closed mouth a treat at distance 10 px survives with no
score change. -/
theorem collision_open_within_radius_iff_witness :
    (FaceApi.processWords ⟨600, 0, 0, true⟩
      [⟨"w", 6, 8, "Apple", "🧁", true, 0⟩] 5).1 = [] ∧
    WordMuncher.processTreats ⟨600, 0, 0, false⟩
      [⟨"t", 6, 8, .cupcake, "Apple", true, true, 0⟩] 5 =
      ([WordMuncher.fallenTreat ⟨"t", 6, 8, .cupcake, "Apple", true, true, 0⟩], 5, 0) := by
  constructor
  · exact (collision_open_within_radius_iff.1 ⟨600, 0, 0, true⟩
      ⟨"w", 6, 8, "Apple", "🧁", true, 0⟩ 5 (by norm_num [FaceApi.fallen])).mpr
      ⟨rfl, by norm_num [FaceApi.fallen, distSq]⟩
  · exact collision_open_within_radius_iff.2.2.2.2.1 ⟨600, 0, 0, false⟩
      ⟨"t", 6, 8, .cupcake, "Apple", true, true, 0⟩ 5 rfl rfl
      (by norm_num [WordMuncher.fallenTreat])

/-! ### Claim C7: off-screen treats are removed without scoring -/

/-- Claim C7: a treat whose updated vertical position exceeds the viewport
height plus the margin is removed on that tick with no score change,
regardless of mouth state: in `part_000` and `App.tsx` it is deactivated
(and an already-inactive treat is evicted with no score change); in
`part_001` it is evicted immediately. -/
theorem offscreen_removed_without_scoring :
    (∀ (env : TickEnv) (t : WordMuncher.WordTreat) (s : ℤ), t.active = true →
      t.y + t.velocity > env.height + 50 →
      WordMuncher.processTreats env [t] s =
        ([{ WordMuncher.fallenTreat t with active := false }], s, 0)) ∧
    (∀ (env : TickEnv) (t : WordMuncher.WordTreat) (s : ℤ), t.active = false →
      WordMuncher.processTreats env [t] s = ([], s, 0)) ∧
    (∀ (env : TickEnv) (m : ℤ) (t : CakeMuncher.Treat) (s : ℤ), t.active = true →
      t.y + t.velocity > env.height + 50 →
      CakeMuncher.processTreats env m [t] s =
        ([{ CakeMuncher.fallenTreat t with active := false }], s)) ∧
    (∀ (env : TickEnv) (m : ℤ) (t : CakeMuncher.Treat) (s : ℤ), t.active = false →
      CakeMuncher.processTreats env m [t] s = ([], s)) ∧
    (∀ (env : TickEnv) (w : FaceApi.FallingWord) (s : ℤ),
      w.y + w.velocity > env.height + 60 →
      FaceApi.processWords env [w] s = ([], s, 0)) := by
  refine ⟨?_, ?_, ?_, ?_, ?_⟩
  · intro env t s h1 h2
    simp [WordMuncher.processTreats, WordMuncher.fallenTreat, h1, h2]
  · intro env t s h1
    simp [WordMuncher.processTreats, h1]
  · intro env m t s h1 h2
    simp [CakeMuncher.processTreats, CakeMuncher.fallenTreat, h1, h2]
  · intro env m t s h1
    simp [CakeMuncher.processTreats, h1]
  · intro env w s h1
    simp [FaceApi.processWords, FaceApi.fallen, h1]

/-- Claim C7, witness: a treat falling past the viewport with the mouth
open right on top of it is still removed with no score change. -/
theorem offscreen_removed_without_scoring_witness :
    WordMuncher.processTreats ⟨600, 0, 700, true⟩
      [⟨"t", 0, 700, .cake, "Sun", false, true, 1⟩] 9 =
      ([{ WordMuncher.fallenTreat ⟨"t", 0, 700, .cake, "Sun", false, true, 1⟩ with
          active := false }], 9, 0) :=
  offscreen_removed_without_scoring.1 ⟨600, 0, 700, true⟩
    ⟨"t", 0, 700, .cake, "Sun", false, true, 1⟩ 9 rfl (by norm_num)

/-! ### Claim C9: weighted category sampling -/

/-- Claim C9: the category selection of `spawnTreat` in `App.tsx` agrees,
for every draw, with cumulative-sum sampling: the selected category is the
first in order whose cumulative weight (40, 70, 85, 93, 98, 100) exceeds
the draw, over weights 40, 30, 15, 8, 5, 2 summing to 100. -/
theorem weighted_category_selection :
    (∀ rand : ℚ, CakeMuncher.selectType rand = CakeMuncher.specSelectType rand) ∧
    CakeMuncher.weights.sum = 100 := by
  constructor
  · intro rand
    norm_num [CakeMuncher.selectType, CakeMuncher.selectTypeGo, CakeMuncher.specSelectType,
      CakeMuncher.cumWeights, CakeMuncher.weights, CakeMuncher.types, List.scanl, List.find?]
    by_cases h1 : rand < 40 <;> by_cases h2 : rand < 70 <;> by_cases h3 : rand < 85 <;>
      by_cases h4 : rand < 93 <;> by_cases h5 : rand < 98 <;> by_cases h6 : rand < 100 <;>
      simp [h1, h2, h3, h4, h5, h6]
  · rfl

/-! ### Claim C5: spawned word agrees with the correctness flag -/

/-- Claim C5: in both word-matching variants, every spawned treat with
`isCorrect = true` carries exactly the active target word, and every
spawned treat with `isCorrect = false` carries a word different from the
target (it is drawn from the vocabulary entries other than the target). -/
theorem spawned_word_matches_flag :
    (∀ (width : ℚ) (cw : String) (d : SpawnDraws) (t : WordMuncher.WordTreat),
      WordMuncher.spawnTreat width cw d = some t →
        (t.isCorrect = true → t.word = cw) ∧ (t.isCorrect = false → t.word ≠ cw)) ∧
    (∀ (width : ℚ) (qi : ℕ) (d : SpawnDraws) (w : FaceApi.FallingWord) (quiz : Quiz),
      QUIZ_LIST.get? qi = some quiz →
      FaceApi.spawnWord width qi d = some w →
        (w.isCorrect = true → w.word = quiz.word) ∧
        (w.isCorrect = false → w.word ≠ quiz.word)) := by
  constructor
  · intro width cw d t h
    simp only [WordMuncher.spawnTreat, Option.map_eq_some'] at h
    obtain ⟨word, hw, ht⟩ := h
    subst ht
    cases hbv : decide (d.correctDraw < 3 / 10) <;> rw [hbv] at hw <;>
      simp only [Bool.false_eq_true, if_false, if_true, Option.map_eq_some',
        Option.some.injEq, reduceIte] at hw
    · obtain ⟨q, hq, hqw⟩ := hw
      have hne : q.word ≠ cw := of_decide_eq_true (List.mem_filter.mp (List.get?_mem hq)).2
      refine ⟨fun hcontra => by simp at hcontra, fun _ => ?_⟩
      simp only [← hqw]
      exact hne
    · refine ⟨fun _ => by simp [← hw], fun hcontra => by simp at hcontra⟩
  · intro width qi d w quiz hq h
    simp only [FaceApi.spawnWord, hq, Option.map_eq_some'] at h
    obtain ⟨word, hw, hwt⟩ := h
    subst hwt
    cases hbv : decide (d.correctDraw < 7 / 20) <;> rw [hbv] at hw <;>
      simp only [Bool.false_eq_true, if_false, if_true, Option.map_eq_some',
        Option.some.injEq, reduceIte] at hw
    · obtain ⟨q, hq2, hqw⟩ := hw
      have hne : q.word ≠ quiz.word :=
        of_decide_eq_true (List.mem_filter.mp (List.get?_mem hq2)).2
      refine ⟨fun hcontra => by simp at hcontra, fun _ => ?_⟩
      simp only [← hqw]
      exact hne
    · refine ⟨fun _ => by simp [← hw], fun hcontra => by simp at hcontra⟩

/-- Claim C5, witness: with target "Apple" and an incorrect draw, the
spawned treat carries "Banana", which differs from "Apple". -/
theorem spawned_word_matches_flag_witness :
    (⟨"x", 75, -50, .cupcake, "Banana", false, true, 3 / 2⟩ :
      WordMuncher.WordTreat).word ≠ "Apple" := by
  have h : WordMuncher.spawnTreat 800 "Apple" ⟨0, 1 / 2, 0, 0, 0, "x"⟩ =
      some ⟨"x", 75, -50, .cupcake, "Banana", false, true, 3 / 2⟩ := by
    norm_num [WordMuncher.spawnTreat, QUIZ_LIST, List.filter_cons, List.filter_nil,
      List.get?]
    simp
  exact (spawned_word_matches_flag.1 800 "Apple" ⟨0, 1 / 2, 0, 0, 0, "x"⟩
    ⟨"x", 75, -50, .cupcake, "Banana", false, true, 3 / 2⟩ h).2 rfl

/-! ### Claim C10: the incorrect-word index of `spawnWord` is in bounds -/

/-- For every choice of target, filtering the quiz list by "word differs
from the target's word" keeps exactly all the other entries: the eight
quiz words are pairwise distinct. -/
theorem quiz_filter_length :
    ∀ i : Fin QUIZ_LIST.length,
      ((QUIZ_LIST.filter (fun q => decide (q.word ≠ (QUIZ_LIST.get i).word))).length =
        QUIZ_LIST.length - 1) := by decide

/-- Claim C10: in `spawnWord` of `part_001`, the filtered list always has
exactly `QUIZ_LIST.length - 1` elements, the random index
`⌊r * (QUIZ_LIST.length - 1)⌋` is in bounds for every draw `r ∈ [0,1)`,
and the spawn therefore always yields a defined word. -/
theorem incorrect_word_access_in_bounds :
    ∀ (qi : ℕ) (quiz : Quiz), QUIZ_LIST.get? qi = some quiz →
      ((QUIZ_LIST.filter (fun q => decide (q.word ≠ quiz.word))).length =
        QUIZ_LIST.length - 1) ∧
      (∀ r : ℚ, 0 ≤ r → r < 1 →
        (⌊r * ((QUIZ_LIST.length - 1 : ℕ) : ℚ)⌋).toNat <
          (QUIZ_LIST.filter (fun q => decide (q.word ≠ quiz.word))).length) ∧
      (∀ (width : ℚ) (d : SpawnDraws), 0 ≤ d.wordDraw → d.wordDraw < 1 →
        ∃ w, FaceApi.spawnWord width qi d = some w) := by
  intro qi quiz hq
  obtain ⟨hlt, hget⟩ := List.get?_eq_some.mp hq
  have hlen := quiz_filter_length ⟨qi, hlt⟩
  rw [hget] at hlen
  have hfloor : ∀ r : ℚ, 0 ≤ r → r < 1 →
      (⌊r * ((QUIZ_LIST.length - 1 : ℕ) : ℚ)⌋).toNat <
        (QUIZ_LIST.filter (fun q => decide (q.word ≠ quiz.word))).length := by
    intro r h0 h1
    rw [hlen]
    have hmul : r * ((QUIZ_LIST.length - 1 : ℕ) : ℚ) < ((QUIZ_LIST.length - 1 : ℕ) : ℚ) := by
      have : (0 : ℚ) < ((QUIZ_LIST.length - 1 : ℕ) : ℚ) := by norm_num [QUIZ_LIST]
      nlinarith
    have hf1 : ⌊r * ((QUIZ_LIST.length - 1 : ℕ) : ℚ)⌋ < (QUIZ_LIST.length - 1 : ℕ) := by
      rw [Int.floor_lt]
      exact_mod_cast hmul
    have hf0 : 0 ≤ ⌊r * ((QUIZ_LIST.length - 1 : ℕ) : ℚ)⌋ :=
      Int.floor_nonneg.mpr (by positivity)
    omega
  refine ⟨hlen, hfloor, ?_⟩
  intro width d hw0 hw1
  cases hbv : decide (d.correctDraw < 7 / 20)
  · have hidx := hfloor d.wordDraw hw0 hw1
    have hq2 := List.get?_eq_get hidx
    simp only [FaceApi.spawnWord, hq, hbv, Bool.false_eq_true, if_false, hq2,
      Option.map_some', reduceIte]
    exact ⟨_, rfl⟩
  · simp only [FaceApi.spawnWord, hq, hbv, if_true, Option.map_some', reduceIte]
    exact ⟨_, rfl⟩

/-- Claim C10, witness: for the first quiz target and the draw 1/2 the
filtered list has seven entries and the spawn yields a word. -/
theorem incorrect_word_access_in_bounds_witness :
    ((QUIZ_LIST.filter (fun q =>
      decide (q.word ≠ (⟨"🍎", "Apple", "사과", "Fruits"⟩ : Quiz).word))).length =
      QUIZ_LIST.length - 1) ∧
    ∃ w, FaceApi.spawnWord 800 0 ⟨0, 1, 1 / 2, 0, 0, "y"⟩ = some w := by
  have h := incorrect_word_access_in_bounds 0 ⟨"🍎", "Apple", "사과", "Fruits"⟩ rfl
  exact ⟨h.1, h.2.2 800 ⟨0, 1, 1 / 2, 0, 0, "y"⟩ (by norm_num) (by norm_num)⟩

/-! ### Shared lemmas about the tick passes -/

/-- The word pass of `part_001` keeps the score nonnegative. -/
theorem processWords_score_nonneg (env : TickEnv) :
    ∀ (ws : List FaceApi.FallingWord) (s : ℤ), 0 ≤ s →
      0 ≤ (FaceApi.processWords env ws s).2.1 := by
  intro ws
  induction ws with
  | nil => intro s h; simpa [FaceApi.processWords] using h
  | cons w rest ih =>
    intro s h
    simp only [FaceApi.processWords]
    split_ifs with h1 h2 h3
    · exact ih s h
    · have := ih s h
      simp only []
      linarith
    · simp only []
      exact le_max_left 0 _
    · exact ih s h

/-- The treat pass of `part_000` keeps the score nonnegative. -/
theorem processTreats_score_nonneg (env : TickEnv) :
    ∀ (ts : List WordMuncher.WordTreat) (s : ℤ), 0 ≤ s →
      0 ≤ (WordMuncher.processTreats env ts s).2.1 := by
  intro ts
  induction ts with
  | nil => intro s h; simpa [WordMuncher.processTreats] using h
  | cons t rest ih =>
    intro s h
    simp only [WordMuncher.processTreats]
    split_ifs with h0 h1 h2 h3
    · exact ih s h
    · exact ih s h
    · have := ih s h
      simp only []
      linarith
    · simp only []
      exact le_max_left 0 _
    · exact ih s h

/-- A quiz-advance callback is scheduled by the word pass of `part_001`
only when some word in the list is consumed while carrying the correct
flag. -/
theorem processWords_adv_pos (env : TickEnv) :
    ∀ (ws : List FaceApi.FallingWord) (s : ℤ),
      0 < (FaceApi.processWords env ws s).2.2 →
      ∃ w ∈ ws, FaceApi.consumesCorrect env w := by
  intro ws
  induction ws with
  | nil => intro s h; simp [FaceApi.processWords] at h
  | cons w rest ih =>
    intro s h
    simp only [FaceApi.processWords] at h
    split_ifs at h with h1 h2 h3
    · obtain ⟨w', hm, hc⟩ := ih s h
      exact ⟨w', List.mem_cons_of_mem _ hm, hc⟩
    · exact ⟨w, List.mem_cons_self _ _, ⟨h1, h2.1, h2.2, h3⟩⟩
    · obtain ⟨w', hm, hc⟩ := ih s h
      exact ⟨w', List.mem_cons_of_mem _ hm, hc⟩
    · obtain ⟨w', hm, hc⟩ := ih s h
      exact ⟨w', List.mem_cons_of_mem _ hm, hc⟩

/-- A `nextQuiz` callback is scheduled by the treat pass of `part_000`
only when some treat in the list is consumed while carrying the correct
flag. -/
theorem processTreats_adv_pos (env : TickEnv) :
    ∀ (ts : List WordMuncher.WordTreat) (s : ℤ),
      0 < (WordMuncher.processTreats env ts s).2.2 →
      ∃ t ∈ ts, WordMuncher.consumesCorrect env t := by
  intro ts
  induction ts with
  | nil => intro s h; simp [WordMuncher.processTreats] at h
  | cons t rest ih =>
    intro s h
    simp only [WordMuncher.processTreats] at h
    split_ifs at h with h0 h1 h2 h3
    · obtain ⟨t', hm, hc⟩ := ih s h
      exact ⟨t', List.mem_cons_of_mem _ hm, hc⟩
    · obtain ⟨t', hm, hc⟩ := ih s h
      exact ⟨t', List.mem_cons_of_mem _ hm, hc⟩
    · have hact : t.active = true := by
        cases hb : t.active
        · exact absurd hb h0
        · rfl
      exact ⟨t, List.mem_cons_self _ _, ⟨hact, h1, h2.1, h2.2, h3⟩⟩
    · obtain ⟨t', hm, hc⟩ := ih s h
      exact ⟨t', List.mem_cons_of_mem _ hm, hc⟩
    · obtain ⟨t', hm, hc⟩ := ih s h
      exact ⟨t', List.mem_cons_of_mem _ hm, hc⟩

/-- The surviving words of a `part_001` tick are exactly the kept words,
each moved down by its velocity. -/
theorem processWords_words_eq (env : TickEnv) :
    ∀ (ws : List FaceApi.FallingWord) (s : ℤ),
      (FaceApi.processWords env ws s).1 =
        (ws.filter (fun w => decide (FaceApi.keeps env w))).map FaceApi.fallen := by
  intro ws
  induction ws with
  | nil => intro s; simp [FaceApi.processWords]
  | cons w rest ih =>
    intro s
    simp only [FaceApi.processWords, List.filter_cons]
    by_cases h1 : (FaceApi.fallen w).y > env.height + 60
    · have hk : ¬ FaceApi.keeps env w := by simp [FaceApi.keeps, h1]
      cases hw : w.isCorrect <;> simp [h1, hk, ih s]
    · by_cases h2 : env.mouthOpen = true ∧
          distSq (FaceApi.fallen w).x (FaceApi.fallen w).y env.mouthX env.mouthY < 70 ^ 2
      · have hk : ¬ FaceApi.keeps env w := by simp [FaceApi.keeps, h1, h2]
        cases hw : w.isCorrect <;> simp [h1, h2, hk, hw, ih s]
      · have hk : FaceApi.keeps env w := ⟨h1, h2⟩
        simp [h1, h2, hk, ih s]

/-! ### Claim C2: the score never goes negative -/

/-- Claim C2: starting from 0, the running score stays nonnegative under
every sequence of spawns, ticks and quiz advances of the `part_001` game
(every penalty is `max 0 (score - 50)`), and every `part_000` tick
preserves nonnegativity of the score for any treat list. -/
theorem score_never_negative :
    (∀ s : FaceApi.GState, FaceApi.Reach FaceApi.init s → 0 ≤ s.score) ∧
    (∀ (env : TickEnv) (ts : List WordMuncher.WordTreat) (s : ℤ), 0 ≤ s →
      0 ≤ (WordMuncher.processTreats env ts s).2.1) := by
  constructor
  · intro s h
    have key : ∀ a b : FaceApi.GState, FaceApi.Reach a b → 0 ≤ a.score → 0 ≤ b.score := by
      intro a b hr
      induction hr with
      | refl => exact id
      | tail hr' st ih =>
        intro ha
        have hb := ih ha
        cases st with
        | spawn width d w hs => simpa using hb
        | tick env =>
          simpa [FaceApi.tickState] using processWords_score_nonneg env _ _ hb
        | advance hp => simpa [FaceApi.advanceState] using hb
    exact key _ _ h le_rfl
  · exact processTreats_score_nonneg

/-- Claim C2, witness: the initial state scores 0, and a `part_000` tick
that consumes a wrong word at score 30 floors the result at 0 instead of
going to -20. -/
theorem score_never_negative_witness :
    0 ≤ FaceApi.init.score ∧
    0 ≤ (WordMuncher.processTreats ⟨600, 0, 0, true⟩
      [⟨"t", 6, 8, .cupcake, "Dog", false, true, 0⟩] 30).2.1 :=
  ⟨score_never_negative.1 FaceApi.init Relation.ReflTransGen.refl,
   score_never_negative.2 ⟨600, 0, 0, true⟩
     [⟨"t", 6, 8, .cupcake, "Dog", false, true, 0⟩] 30 (by norm_num)⟩

/-! ### Claim C6: the quiz target advances only on a correct consumption -/

/-- Claim C6: in both word-matching variants the quiz target changes only
through a pending quiz-advance callback — which steps it to the next list
entry wrapping modulo the list length and clears all falling treats — and
the pending count grows only on a tick that consumed a treat carrying the
correct word.  For `part_001` this is stated over its `Step` system with
the index step `(i + 1) % QUIZ_LIST.length`; for `part_000` over its
`Step` system with `nextQuiz`, which steps every list entry to its
successor modulo the length. -/
theorem quiz_advances_only_on_correct :
    (∀ s s' : FaceApi.GState, FaceApi.Step s s' → s'.quizIndex ≠ s.quizIndex →
      0 < s.pending ∧ s'.quizIndex = (s.quizIndex + 1) % QUIZ_LIST.length ∧
        s'.words = []) ∧
    (∀ s s' : FaceApi.GState, FaceApi.Step s s' → s.pending < s'.pending →
      ∃ env : TickEnv, s' = FaceApi.tickState env s ∧
        ∃ w ∈ s.words, FaceApi.consumesCorrect env w) ∧
    (∀ s s' : WordMuncher.GState, WordMuncher.Step s s' →
      s'.currentQuiz ≠ s.currentQuiz →
      0 < s.pending ∧ s'.currentQuiz = WordMuncher.nextQuiz s.currentQuiz ∧
        s'.treats = []) ∧
    (∀ s s' : WordMuncher.GState, WordMuncher.Step s s' → s.pending < s'.pending →
      ∃ env : TickEnv, s' = WordMuncher.tickState env s ∧
        ∃ t ∈ s.treats, WordMuncher.consumesCorrect env t) ∧
    (∀ i : Fin QUIZ_LIST.length,
      WordMuncher.nextQuiz (QUIZ_LIST.get i) =
        QUIZ_LIST.getD ((i.1 + 1) % QUIZ_LIST.length) (Quiz.mk "" "" "" "")) := by
  refine ⟨?_, ?_, ?_, ?_, ?_⟩
  · intro s s' st hne
    cases st with
    | spawn width d w hs => simp at hne
    | tick env => simp [FaceApi.tickState] at hne
    | advance hp => exact ⟨hp, rfl, rfl⟩
  · intro s s' st hpend
    cases st with
    | spawn width d w hs => simp at hpend
    | tick env =>
      refine ⟨env, rfl, ?_⟩
      have hpend2 : s.pending < s.pending +
          (FaceApi.processWords env s.words s.score).2.2 := hpend
      exact processWords_adv_pos env s.words s.score (by omega)
    | advance hp =>
      simp [FaceApi.advanceState] at hpend
      omega
  · intro s s' st hne
    cases st with
    | spawn width d t hs => simp at hne
    | tick env => simp [WordMuncher.tickState] at hne
    | advance hp => exact ⟨hp, rfl, rfl⟩
  · intro s s' st hpend
    cases st with
    | spawn width d t hs => simp at hpend
    | tick env =>
      refine ⟨env, rfl, ?_⟩
      have hpend2 : s.pending < s.pending +
          (WordMuncher.processTreats env s.treats s.score).2.2 := hpend
      exact processTreats_adv_pos env s.treats s.score (by omega)
    | advance hp =>
      simp [WordMuncher.advanceState] at hpend
      omega
  · decide

/-- Claim C6, witness: a concrete advance step in each variant — from
quiz index 0 with one pending callback the `part_001` game wraps to
index 1 with no words, and from the "Apple" quiz with one pending
callback the `part_000` game steps to the next quiz with no treats. -/
theorem quiz_advances_only_on_correct_witness :
    (0 < (⟨[], 0, 0, 1⟩ : FaceApi.GState).pending ∧
      (FaceApi.advanceState ⟨[], 0, 0, 1⟩).quizIndex =
        ((⟨[], 0, 0, 1⟩ : FaceApi.GState).quizIndex + 1) % QUIZ_LIST.length ∧
      (FaceApi.advanceState ⟨[], 0, 0, 1⟩).words = []) ∧
    (0 < (⟨⟨"🍎", "Apple", "사과", "Fruits"⟩, [], 0, 1⟩ :
        WordMuncher.GState).pending ∧
      (WordMuncher.advanceState ⟨⟨"🍎", "Apple", "사과", "Fruits"⟩, [], 0, 1⟩).currentQuiz =
        WordMuncher.nextQuiz
          (⟨⟨"🍎", "Apple", "사과", "Fruits"⟩, [], 0, 1⟩ :
            WordMuncher.GState).currentQuiz ∧
      (WordMuncher.advanceState
        ⟨⟨"🍎", "Apple", "사과", "Fruits"⟩, [], 0, 1⟩).treats = []) :=
  ⟨quiz_advances_only_on_correct.1 ⟨[], 0, 0, 1⟩
    (FaceApi.advanceState ⟨[], 0, 0, 1⟩)
    (FaceApi.Step.advance _ (by decide)) (by decide),
   quiz_advances_only_on_correct.2.2.1 ⟨⟨"🍎", "Apple", "사과", "Fruits"⟩, [], 0, 1⟩
    (WordMuncher.advanceState ⟨⟨"🍎", "Apple", "사과", "Fruits"⟩, [], 0, 1⟩)
    (WordMuncher.Step.advance _ (by decide)) (by decide)⟩

/-! ### Claim C8: uniqueness of treat identifiers -/

/-- Claim C8, counterexample: identifiers come from raw random draws with
no uniqueness enforcement, so a state whose store holds two treats with
the same identifier is reachable — here by spawning twice with the same
drawn id string. -/
theorem duplicate_id_reachable :
    ∃ s : FaceApi.GState, FaceApi.Reach FaceApi.init s ∧
      ¬ (s.words.map (fun w => w.id)).Nodup := by
  have h : FaceApi.spawnWord 800 0 ⟨0, 0, 0, 0, 0, "aaaaaaaaa"⟩ =
      some ⟨"aaaaaaaaa", 100, -60, "Apple", "🧁", true, 2⟩ := by
    norm_num [FaceApi.spawnWord, QUIZ_LIST, List.get?, FaceApi.TREAT_TYPES,
      FaceApi.TREAT_EMOJIS]
  refine ⟨_, Relation.ReflTransGen.tail (Relation.ReflTransGen.tail
    Relation.ReflTransGen.refl
    (FaceApi.Step.spawn FaceApi.init 800 ⟨0, 0, 0, 0, 0, "aaaaaaaaa"⟩
      ⟨"aaaaaaaaa", 100, -60, "Apple", "🧁", true, 2⟩ h))
    (FaceApi.Step.spawn _ 800 ⟨0, 0, 0, 0, 0, "aaaaaaaaa"⟩
      ⟨"aaaaaaaaa", 100, -60, "Apple", "🧁", true, 2⟩ h), ?_⟩
  decide

/-- Claim C8 (amended): identifier uniqueness is preserved by every tick
(kept words are a sublist with unchanged ids) and by every quiz advance
(the store is cleared), and by any spawn whose drawn identifier differs
from every identifier already in the store; the store itself never
enforces distinctness of the random draws. -/
theorem unique_ids_preserved :
    (∀ (env : TickEnv) (s : FaceApi.GState),
      (s.words.map (fun w => w.id)).Nodup →
      ((FaceApi.tickState env s).words.map (fun w => w.id)).Nodup) ∧
    (∀ s : FaceApi.GState,
      ((FaceApi.advanceState s).words.map (fun w => w.id)).Nodup) ∧
    (∀ (ws : List FaceApi.FallingWord) (w : FaceApi.FallingWord),
      (ws.map (fun x => x.id)).Nodup → w.id ∉ ws.map (fun x => x.id) →
      ((ws ++ [w]).map (fun x => x.id)).Nodup) := by
  refine ⟨?_, ?_, ?_⟩
  · intro env s h
    have heq : (FaceApi.tickState env s).words =
        (s.words.filter (fun w => decide (FaceApi.keeps env w))).map FaceApi.fallen :=
      processWords_words_eq env s.words s.score
    rw [heq, List.map_map]
    have hfun : ((fun w => FaceApi.FallingWord.id w) ∘ FaceApi.fallen) =
        (fun w : FaceApi.FallingWord => w.id) := by
      funext w
      rfl
    rw [hfun]
    exact h.sublist ((List.filter_sublist _).map _)
  · intro s
    simp [FaceApi.advanceState]
  · intro ws w h1 h2
    rw [List.map_append]
    simp only [List.map_cons, List.map_nil]
    rw [List.nodup_append]
    exact ⟨h1, List.nodup_singleton _, by simpa [List.disjoint_singleton] using h2⟩

/-- Claim C8, witness: spawning a word with a fresh identifier "b" into a
store holding only identifier "a" keeps the identifiers distinct. -/
theorem unique_ids_preserved_witness :
    ((([⟨"a", 0, 0, "Dog", "🍪", false, 1⟩] : List FaceApi.FallingWord) ++
      ([⟨"b", 0, 0, "Cat", "🍪", false, 1⟩] : List FaceApi.FallingWord)).map
        (fun x => x.id)).Nodup :=
  unique_ids_preserved.2.2 [⟨"a", 0, 0, "Dog", "🍪", false, 1⟩]
    ⟨"b", 0, 0, "Cat", "🍪", false, 1⟩ (by decide) (by decide)

end EatGlish
